import Mathlib

/-!
Shallow embedding of the user-directory service of this repository.

The authoritative code is the server-side `UserService`
(`apps/server/src/user/user.service.ts`): an in-memory `users : User[]`
array with operations `create`, `login`, `verifyToken`, `findOne`,
`findAll`, `queryUsers`, `mapUsersToUsersPreview`.

Modelling conventions:
* `this.users` becomes an explicit `List User` argument (insertion order
  preserved; `create` appends, mirroring `Array.prototype.push`).
* `bcrypt.hash` is non-deterministic (fresh salt) and `randomUUID` draws a
  fresh id, so `create` receives the generated id and the hashed password
  as explicit arguments; `bcrypt.compare` becomes an abstract verifier
  `vrfy : String → String → Bool`, and `jwtService.sign` an abstract
  `sign : JwtPayload → τ`.
* Thrown exceptions become `Except` errors carrying the exception kind and
  message exactly as the code constructs them.
* JavaScript numbers for `page`/`limit` are modelled as `Rat`, so that the
  `Number.isInteger` check is a real check (`q.den = 1`); `Array.slice`
  keeps its JavaScript negative-index clipping semantics (`jsSlice`).
* `localeCompare` ascending order is modelled as the lexicographic order
  on the character sequences of the strings; `Array.prototype.sort`
  (stable since ES2019) with that comparator is modelled by
  `List.insertionSort`, which is stable.
-/

/-- A user record, as stored in `UserService.users`. The same field set is
used for the registration DTO; `create` overrides `id` and `password`. -/
structure User where
  id : String
  email : String
  firstName : String
  lastName : String
  company : String
  password : String
deriving Repr, DecidableEq

/-- Registration input: same shape as `User` (the code spreads it). -/
abbrev UserDto := User

/-- The `{id, email}` projection exposed by listings. -/
structure UserPreview where
  id : String
  email : String
deriving Repr, DecidableEq

/-- The object literal `{ user }` returned by `findOne`. -/
structure UserDetailResponse where
  user : User
deriving Repr, DecidableEq

/-- The object literal `{ users: ... }` returned by `findAll`.
It has exactly one field. -/
structure UserListResponse where
  users : List UserPreview
deriving Repr, DecidableEq

/-- The object literal returned by `queryUsers`:
`{ users, total, page, limit }`. -/
structure UserQueryResponse where
  users : List UserPreview
  total : Nat
  page : Rat
  limit : Rat
deriving Repr, DecidableEq

/-- The payload signed at login: `{ sub: user.id, email: user.email }`. -/
structure JwtPayload where
  sub : String
  email : String
deriving Repr, DecidableEq

/-- Error of `create`: `UnauthorizedException({statusCode, message})`,
the `DuplicateEmail` failure of the spec. -/
inductive CreateErr where
  | duplicateEmail (statusCode : Nat) (message : String)
deriving Repr, DecidableEq

/-- Error of `login`: `UnauthorizedException(message)`,
the `AuthenticationFailed` failure of the spec. -/
inductive LoginErr where
  | unauthorized (message : String)
deriving Repr, DecidableEq

/-- Error of `findOne`: `NotFoundException({code: 404}, description)`. -/
inductive FindErr where
  | notFound (code : Nat) (description : String)
deriving Repr, DecidableEq

/-- Error of `queryUsers`: a plain `Error(message)`,
the `InvalidPageRequest` failure of the spec. -/
inductive QueryErr where
  | invalidPageRequest (message : String)
deriving Repr, DecidableEq

/-- `UserService.mapUsersToUsersPreview`:
`users.map((u) => ({ id: u.id, email: u.email }))`. -/
def mapUsersToUsersPreview (users : List User) : List UserPreview :=
  users.map (fun u => { id := u.id, email := u.email })

/-- The comparator `(a, b) => a.email.localeCompare(b.email)` as the
corresponding non-strict order on previews: lexicographic order on the
character sequences of the emails. -/
def emailLe (a b : UserPreview) : Prop :=
  a.email.data ≤ b.email.data

instance : DecidableRel emailLe :=
  fun a b => inferInstanceAs (Decidable (a.email.data ≤ b.email.data))

instance : IsTotal UserPreview emailLe :=
  ⟨fun a b => le_total a.email.data b.email.data⟩

instance : IsTrans UserPreview emailLe :=
  ⟨fun _ _ _ hab hbc => le_trans hab hbc⟩

/-- `.sort((a, b) => a.email.localeCompare(b.email))`: stable ascending
sort by email. -/
def sortByEmail (l : List UserPreview) : List UserPreview :=
  List.insertionSort emailLe l

/-- `UserService.create(userDto)`. The fresh `randomUUID()` and the
bcrypt-hashed password are passed in explicitly (`freshId`, `hashed`).
Returns the result of the call (`id` or the thrown exception) together
with the post-call `users` array; the guard `userDto && ...` is the
duplicate-email check (the dto is always a present object here). -/
def create (userDto : UserDto) (freshId hashed : String) (users : List User) :
    Except CreateErr String × List User :=
  if users.any (fun u => u.email == userDto.email) then
    (.error (.duplicateEmail 409
      ("User with email " ++ userDto.email ++ " already registered")), users)
  else
    let user : User := { userDto with id := freshId, password := hashed }
    (.ok user.id, users ++ [user])

/-- `UserService.login(email, password)`. `vrfy` is `bcrypt.compare`
(plaintext, digest); `sign` is `jwtService.sign`. -/
def login {τ : Type} (vrfy : String → String → Bool) (sign : JwtPayload → τ)
    (email password : String) (users : List User) : Except LoginErr τ :=
  match users.find? (fun u => u.email == email) with
  | none => .error (.unauthorized "User does not exist")
  | some user =>
    if vrfy password user.password then
      .ok (sign { sub := user.id, email := user.email })
    else
      .error (.unauthorized "Invalid credentials")

/-- `UserService.findOne(id)`. -/
def findOne (users : List User) (id : String) :
    Except FindErr UserDetailResponse :=
  match users.find? (fun user => user.id == id) with
  | none => .error (.notFound 404 ("User with ID " ++ id ++ " not found"))
  | some user => .ok { user := user }

/-- `UserService.findAll()`. -/
def findAll (users : List User) : UserListResponse :=
  { users := sortByEmail (mapUsersToUsersPreview users) }

/-- `Array.prototype.slice(start, end)` with JavaScript semantics:
negative indices count from the end, and both bounds are clipped to
`[0, length]`. -/
def jsSlice {α : Type} (l : List α) (start stop : Int) : List α :=
  let len : Int := l.length
  let s : Int := if start < 0 then max (len + start) 0 else min start len
  let e : Int := if stop < 0 then max (len + stop) 0 else min stop len
  (l.take e.toNat).drop s.toNat

/-- `UserService.queryUsers({page, limit})`. `page` and `limit` are
JavaScript numbers, modelled as rationals so that `Number.isInteger` is a
genuine check; `allowedLimits.includes(limit)` is the disjunction below. -/
def queryUsers (users : List User) (page limit : Rat) :
    Except QueryErr UserQueryResponse :=
  if ¬(page.den = 1) ∨ page < 0 then
    .error (.invalidPageRequest "Page must be an integer greater or equal to 0")
  else if ¬(limit = 5 ∨ limit = 10 ∨ limit = 25) then
    .error (.invalidPageRequest "Limit must be one of 5, 10, 25")
  else
    let start : Int := (page.num - 1) * limit.num
    let stop : Int := start + limit.num
    .ok { users := sortByEmail (jsSlice (mapUsersToUsersPreview users) start stop)
        , total := users.length
        , page := page
        , limit := limit }

/-- The keys of the object literal `findAll` returns: `{ users: ... }`
serializes with exactly this one key. -/
def listResponseKeys : List String := ["users"]

/-- Outward serialization of a stored `User` object: `findOne` returns the
record itself inside `{ user }`, so every field of the record — the
(hashed) `password` included — is part of the serialized response. -/
def serializeUser (u : User) : List (String × String) :=
  [ ("id", u.id)
  , ("email", u.email)
  , ("firstName", u.firstName)
  , ("lastName", u.lastName)
  , ("company", u.company)
  , ("password", u.password) ]

/-- Outward serialization of the `findOne` response `{ user }`. -/
def serializeDetailResponse (r : UserDetailResponse) : List (String × String) :=
  serializeUser r.user

/-- Running a sequence of registrations: each step carries the candidate
dto together with the fresh id and the hashed password that call draws,
and the directory evolves by the state `create` returns (unchanged on a
thrown exception). -/
def runRegisters (steps : List (UserDto × String × String))
    (users : List User) : List User :=
  match steps with
  | [] => users
  | (dto, freshId, hashed) :: rest =>
    runRegisters rest (create dto freshId hashed users).2

/-- Error of token verification. -/
inductive TokenErr where
  | invalidToken
deriving Repr, DecidableEq

/-- Modelled from the spec: the Token Authority (`JwtService` of
`@nestjs/jwt`, not part of this repository's sources; the module
configuration in `user.module.ts` supplies the signing secret and the
`expiresIn: '1h'` lifetime). A token is the signed claims plus issuance
and expiry timestamps (seconds) and a signature over secret and payload. -/
structure Token where
  claims : JwtPayload
  iat : Nat
  exp : Nat
  sig : List Nat
deriving Repr, DecidableEq

/-- Modelled from the spec: the signature bytes a correct signer produces
for the given secret, claims and timestamps (tamper-evident: any token
whose stored signature differs from this recomputation is rejected). -/
def computeSig (secret : String) (c : JwtPayload) (iat exp : Nat) : List Nat :=
  ((secret ++ "|" ++ c.sub ++ "|" ++ c.email ++ "|" ++ toString iat ++ "|"
    ++ toString exp).toList).map Char.toNat

/-- Modelled from the spec: `issue(claims)` — sign the claims with the
process-wide secret, with expiry one hour (3600 seconds) from issuance. -/
def issueToken (secret : String) (c : JwtPayload) (now : Nat) : Token :=
  { claims := c
  , iat := now
  , exp := now + 3600
  , sig := computeSig secret c now (now + 3600) }

/-- Modelled from the spec: `verify(token)` — fails with `InvalidToken`
when the signature does not match the recomputation or the token is
expired (`now` at or past `exp`); otherwise returns the embedded claims. -/
def verifyToken (secret : String) (t : Token) (now : Nat) :
    Except TokenErr JwtPayload :=
  if t.sig = computeSig secret t.claims t.iat t.exp then
    if now < t.exp then .ok t.claims else .error .invalidToken
  else .error .invalidToken

/-- The global invariant of the directory: pairwise distinct emails. -/
def distinctEmails (users : List User) : Prop :=
  users.Pairwise (fun a b => a.email ≠ b.email)

/-! ### Concrete fixtures used by witnesses and counterexamples -/

/-- A concrete user record. -/
def mkUser (i e p : String) : User :=
  { id := i, email := e, firstName := "F", lastName := "L",
    company := "C", password := p }

/-- A registration candidate. -/
def dtoA : UserDto := mkUser "0" "u@x.com" "plain"

/-- The record `create` appends for `dtoA` with id `i1` and hash `h1`. -/
def userA1 : User := { dtoA with id := "i1", password := "h1" }

/-- Six records whose insertion order is the reverse of their email
order, so page-local sorting is visibly different from global sorting. -/
def demoSix : List User :=
  [ mkUser "1" "f@x.com" "h1", mkUser "2" "e@x.com" "h2"
  , mkUser "3" "d@x.com" "h3", mkUser "4" "c@x.com" "h4"
  , mkUser "5" "b@x.com" "h5", mkUser "6" "a@x.com" "h6" ]

/-! ### Lemmas about `create` -/

/-- `create` on a state already holding the candidate's email throws the
409 duplicate-email exception and returns the state unchanged. -/
lemma create_dup {dto : UserDto} {freshId hashed : String} {users : List User}
    (h : ∃ u ∈ users, u.email = dto.email) :
    create dto freshId hashed users =
      (.error (.duplicateEmail 409
        ("User with email " ++ dto.email ++ " already registered")), users) := by
  obtain ⟨u, hu, he⟩ := h
  have hany : users.any (fun u => u.email == dto.email) = true := by
    rw [List.any_eq_true]
    exact ⟨u, hu, by simp [he]⟩
  simp [create, hany]

/-- `create` on a state free of the candidate's email appends exactly one
record: the dto with the fresh id and the hashed password. -/
lemma create_new {dto : UserDto} {freshId hashed : String} {users : List User}
    (h : ∀ u ∈ users, u.email ≠ dto.email) :
    create dto freshId hashed users =
      (.ok freshId, users ++ [{ dto with id := freshId, password := hashed }]) := by
  have hany : users.any (fun u => u.email == dto.email) = false := by
    rw [List.any_eq_false]
    intro u hu
    simp [h u hu]
  simp [create, hany]

/-- One `create` call preserves pairwise-distinct emails. -/
lemma create_preserves_distinct (dto : UserDto) (freshId hashed : String)
    (users : List User) (h : distinctEmails users) :
    distinctEmails (create dto freshId hashed users).2 := by
  by_cases hd : ∃ u ∈ users, u.email = dto.email
  · rw [create_dup hd]
    exact h
  · push_neg at hd
    rw [create_new hd]
    unfold distinctEmails at h ⊢
    rw [List.pairwise_append]
    refine ⟨h, List.pairwise_singleton _ _, ?_⟩
    intro a ha b hb
    rw [List.mem_singleton] at hb
    subst hb
    simpa using hd a ha

/-- Any register sequence preserves pairwise-distinct emails. -/
lemma runRegisters_preserves_distinct (steps : List (UserDto × String × String)) :
    ∀ users : List User, distinctEmails users →
      distinctEmails (runRegisters steps users) := by
  induction steps with
  | nil =>
    intro users h
    exact h
  | cons s rest ih =>
    intro users h
    obtain ⟨dto, freshId, hashed⟩ := s
    exact ih _ (create_preserves_distinct dto freshId hashed users h)

/-- C1: for every sequence of register calls the directory never holds two
records with equal email; a registration whose email is absent (in
particular, the first registration of that email) succeeds and appends one
record, and a registration whose email is already present (case-sensitive
exact match) fails with the 409 duplicate-email error and leaves the
record count unchanged. -/
theorem register_email_uniqueness :
    (∀ steps : List (UserDto × String × String),
      distinctEmails (runRegisters steps []))
    ∧ (∀ (dto : UserDto) (freshId hashed : String) (users : List User),
        (∀ u ∈ users, u.email ≠ dto.email) →
        create dto freshId hashed users =
          (.ok freshId, users ++ [{ dto with id := freshId, password := hashed }])
        ∧ (create dto freshId hashed users).2.length = users.length + 1)
    ∧ (∀ (dto : UserDto) (freshId hashed : String) (users : List User),
        (∃ u ∈ users, u.email = dto.email) →
        create dto freshId hashed users =
          (.error (.duplicateEmail 409
            ("User with email " ++ dto.email ++ " already registered")), users)
        ∧ (create dto freshId hashed users).2.length = users.length) := by
  refine ⟨?_, ?_, ?_⟩
  · intro steps
    exact runRegisters_preserves_distinct steps [] (List.Pairwise.nil)
  · intro dto freshId hashed users h
    refine ⟨create_new h, ?_⟩
    rw [create_new h]
    simp
  · intro dto freshId hashed users h
    refine ⟨create_dup h, ?_⟩
    rw [create_dup h]

/-- Witness for C1 at concrete inputs: a duplicate-registration sequence
keeps emails distinct; a fresh email registers; a present email fails. -/
theorem register_email_uniqueness_witness :
    distinctEmails (runRegisters
      [(dtoA, "i1", "h1"), (mkUser "9" "u@x.com" "q", "i2", "h2")] [])
    ∧ create dtoA "i1" "h1" [] = (.ok "i1", [userA1])
    ∧ (create dtoA "i1" "h1" []).2.length = 0 + 1
    ∧ create dtoA "i2" "h2" [userA1] =
        (.error (.duplicateEmail 409
          "User with email u@x.com already registered"), [userA1])
    ∧ (create dtoA "i2" "h2" [userA1]).2.length = [userA1].length := by
  obtain ⟨h1, h2, h3⟩ := register_email_uniqueness
  have hnew := h2 dtoA "i1" "h1" [] (by simp)
  have hdup := h3 dtoA "i2" "h2" [userA1] (by decide)
  exact ⟨h1 _, hnew.1, hnew.2, hdup.1, hdup.2⟩

/-- C7: registering a candidate whose email is already present fails and
returns the directory exactly as it was: no append, removal or change. -/
theorem register_duplicate_no_mutation
    (dto : UserDto) (freshId hashed : String) (users : List User)
    (h : ∃ u ∈ users, u.email = dto.email) :
    create dto freshId hashed users =
      (.error (.duplicateEmail 409
        ("User with email " ++ dto.email ++ " already registered")), users) :=
  create_dup h

/-- Witness for C7: a concrete duplicate registration leaves the
one-record directory untouched. -/
theorem register_duplicate_no_mutation_witness :
    (∃ u ∈ [userA1], u.email = dtoA.email)
    ∧ create dtoA "i9" "h9" [userA1] =
        (.error (.duplicateEmail 409
          "User with email u@x.com already registered"), [userA1]) :=
  ⟨by decide, register_duplicate_no_mutation dtoA "i9" "h9" [userA1] (by decide)⟩

/-! ### C2: what `findOne` exposes -/

/-- The claim of C2, as stated: a successful `getOne` never serializes the
stored password hash outward. -/
def getOneOmitsPasswordHash : Prop :=
  ∀ (users : List User) (id : String) (r : UserDetailResponse),
    findOne users id = .ok r →
    ∀ v, ("password", v) ∉ serializeDetailResponse r

/-- C2 counterexample: `findOne` returns the stored record itself inside
`{ user }`, so the serialized response carries the password hash. On the
one-record directory holding the hash `hashed-secret`, `getOne "123"`
serializes `("password", "hashed-secret")`. -/
theorem getOne_exposes_password_hash : ¬ getOneOmitsPasswordHash := by
  intro h
  exact h [mkUser "123" "d@x.com" "hashed-secret"] "123"
    { user := mkUser "123" "d@x.com" "hashed-secret" } rfl "hashed-secret"
    (by simp [serializeDetailResponse, serializeUser, mkUser])

/-- C2 amended: `getOne` returns the full stored record — its password
hash included in the serialized response — for the first record whose id
matches, and fails with the 404 NotFound error when no record matches. -/
theorem getOne_full_record_or_notFound (users : List User) (id : String) :
    (∀ user, users.find? (fun u => u.id == id) = some user →
      user ∈ users ∧ user.id = id
      ∧ findOne users id = .ok { user := user }
      ∧ ("password", user.password) ∈ serializeDetailResponse { user := user })
    ∧ ((∀ u ∈ users, u.id ≠ id) →
      findOne users id =
        .error (.notFound 404 ("User with ID " ++ id ++ " not found"))) := by
  constructor
  · intro user hfind
    refine ⟨List.mem_of_find?_eq_some hfind, ?_, ?_, ?_⟩
    · have := List.find?_some hfind
      simpa using this
    · simp [findOne, hfind]
    · simp [serializeDetailResponse, serializeUser]
  · intro hnone
    have : users.find? (fun u => u.id == id) = none := by
      rw [List.find?_eq_none]
      intro u hu
      simpa using hnone u hu
    simp [findOne, this]

/-- Witness for C2 amended: on `demoSix`, id `3` yields the full record
with its hash serialized, and id `99` yields the 404 error. -/
theorem getOne_full_record_or_notFound_witness :
    ((mkUser "3" "d@x.com" "h3") ∈ demoSix ∧ (mkUser "3" "d@x.com" "h3").id = "3"
      ∧ findOne demoSix "3" = .ok { user := mkUser "3" "d@x.com" "h3" }
      ∧ ("password", "h3") ∈
          serializeDetailResponse { user := mkUser "3" "d@x.com" "h3" })
    ∧ findOne demoSix "99" =
        .error (.notFound 404 "User with ID 99 not found") := by
  have h3 := (getOne_full_record_or_notFound demoSix "3").1
    (mkUser "3" "d@x.com" "h3") rfl
  have h99 := (getOne_full_record_or_notFound demoSix "99").2 (by decide)
  exact ⟨h3, h99⟩

/-! ### C6: the shape and order of `findAll` -/

/-- The claim of C6, as stated: `listAll` returns the preview of every
record sorted by email ascending, in a PageResult-shaped response whose
serialized keys include a `total` equal to the record count. -/
def listAllClaim : Prop :=
  ∀ users : List User,
    List.Perm (findAll users).users (mapUsersToUsersPreview users)
    ∧ List.Sorted emailLe (findAll users).users
    ∧ "total" ∈ listResponseKeys

/-- C6 counterexample: the object `findAll` returns is `{ users: ... }` —
its only serialized key is `users`, so no `total` field exists at all. -/
theorem listAll_has_no_total : ¬ listAllClaim := by
  intro h
  have := (h []).2.2
  simp [listResponseKeys] at this

/-- C6 amended: `listAll` returns the `{id, email}` preview of every live
record sorted by email ascending, but the response carries only the
`users` field — there is no `total` field reporting the record count. -/
theorem listAll_sorted_perm_no_total (users : List User) :
    List.Perm (findAll users).users (mapUsersToUsersPreview users)
    ∧ List.Sorted emailLe (findAll users).users
    ∧ "total" ∉ listResponseKeys := by
  refine ⟨?_, ?_, by simp [listResponseKeys]⟩
  · exact List.perm_insertionSort emailLe (mapUsersToUsersPreview users)
  · exact List.sorted_insertionSort emailLe (mapUsersToUsersPreview users)

/-! ### C3 and C8: `login` -/

/-- In a directory with pairwise-distinct emails, two members sharing an
email are the same record. -/
lemma eq_of_mem_of_email_eq {users : List User} (h : distinctEmails users)
    {a b : User} (ha : a ∈ users) (hb : b ∈ users)
    (he : a.email = b.email) : a = b := by
  by_contra hne
  have hsym : Symmetric (fun a b : User => a.email ≠ b.email) :=
    fun x y hxy => hxy.symm
  exact (h.forall hsym ha hb hne) he

/-- C3: under the directory invariant, `login` succeeds exactly when a
record with that exact email exists and the hasher verifies the supplied
password against its stored hash; on success the signed payload carries
that record's id as subject and its email; otherwise it fails with an
`UnauthorizedException` (the `AuthenticationFailed` kind). -/
theorem login_iff_valid_credentials {τ : Type}
    (vrfy : String → String → Bool) (sign : JwtPayload → τ)
    (email password : String) (users : List User)
    (huniq : distinctEmails users) :
    ((∃ t, login vrfy sign email password users = .ok t) ↔
      (∃ u ∈ users, u.email = email ∧ vrfy password u.password = true))
    ∧ (∀ u ∈ users, u.email = email → vrfy password u.password = true →
        login vrfy sign email password users =
          .ok (sign { sub := u.id, email := u.email }))
    ∧ ((∀ u ∈ users, ¬(u.email = email ∧ vrfy password u.password = true)) →
        ∃ msg, login vrfy sign email password users =
          .error (.unauthorized msg)) := by
  cases hfind : users.find? (fun u => u.email == email) with
  | none =>
    have hno : ∀ u ∈ users, u.email ≠ email := by
      intro u hu
      have := List.find?_eq_none.mp hfind u hu
      simpa using this
    have hlogin : login vrfy sign email password users =
        .error (.unauthorized "User does not exist") := by
      simp [login, hfind]
    refine ⟨⟨?_, ?_⟩, ?_, ?_⟩
    · rintro ⟨t, ht⟩
      rw [hlogin] at ht
      cases ht
    · rintro ⟨u, hu, he, _⟩
      exact absurd he (hno u hu)
    · intro u hu he _
      exact absurd he (hno u hu)
    · intro _
      exact ⟨_, hlogin⟩
  | some u =>
    have humem : u ∈ users := List.mem_of_find?_eq_some hfind
    have huemail : u.email = email := by simpa using List.find?_some hfind
    cases hv : vrfy password u.password with
    | true =>
      have hlogin : login vrfy sign email password users =
          .ok (sign { sub := u.id, email := u.email }) := by
        simp [login, hfind, hv]
      refine ⟨⟨?_, ?_⟩, ?_, ?_⟩
      · intro _
        exact ⟨u, humem, huemail, hv⟩
      · intro _
        exact ⟨_, hlogin⟩
      · intro u' hu' he' hv'
        have : u' = u :=
          eq_of_mem_of_email_eq huniq hu' humem (he'.trans huemail.symm)
        subst this
        exact hlogin
      · intro hall
        exact ((hall u humem) ⟨huemail, hv⟩).elim
    | false =>
      have hlogin : login vrfy sign email password users =
          .error (.unauthorized "Invalid credentials") := by
        simp [login, hfind, hv]
      refine ⟨⟨?_, ?_⟩, ?_, ?_⟩
      · rintro ⟨t, ht⟩
        rw [hlogin] at ht
        cases ht
      · rintro ⟨u', hu', he', hv'⟩
        have : u' = u :=
          eq_of_mem_of_email_eq huniq hu' humem (he'.trans huemail.symm)
        subst this
        rw [hv] at hv'
        cases hv'
      · intro u' hu' he' hv'
        have : u' = u :=
          eq_of_mem_of_email_eq huniq hu' humem (he'.trans huemail.symm)
        subst this
        rw [hv] at hv'
        cases hv'
      · intro _
        exact ⟨_, hlogin⟩

/-- Witness for C3: on the one-record directory, the matching email with
the verifying password yields the token signed over that record's id and
email. -/
theorem login_iff_valid_credentials_witness :
    login (fun p d => p == d) (fun c : JwtPayload => c.sub ++ "," ++ c.email)
      "u@x.com" "h1" [userA1] = .ok "i1,u@x.com" := by
  have h := login_iff_valid_credentials (fun p d => p == d)
    (fun c : JwtPayload => c.sub ++ "," ++ c.email)
    "u@x.com" "h1" [userA1] (by simp [distinctEmails])
  have := h.2.1 userA1 (by simp) (by decide) (by decide)
  simpa using this

/-- The claim of C8, as stated: any two `login` failures against the same
directory are externally identical, whatever their cause. -/
def loginFailuresIndistinguishable : Prop :=
  ∀ (τ : Type) (vrfy : String → String → Bool) (sign : JwtPayload → τ)
    (users : List User) (e1 p1 e2 p2 : String) (m1 m2 : LoginErr),
    login vrfy sign e1 p1 users = .error m1 →
    login vrfy sign e2 p2 users = .error m2 →
    m1 = m2

/-- C8 counterexample: on a one-record directory, an unknown email fails
with message `User does not exist` while a known email with a wrong
password fails with message `Invalid credentials` — two different errors,
so the cause is distinguishable from the outcome. -/
theorem login_failures_distinguishable : ¬ loginFailuresIndistinguishable := by
  intro h
  have := h String (fun p d => p == d) (fun c => c.sub) [userA1]
    "z@x.com" "h1" "u@x.com" "bad"
    (.unauthorized "User does not exist") (.unauthorized "Invalid credentials")
    rfl rfl
  simp at this

/-- C8 amended: both failure causes raise the same exception kind
(`UnauthorizedException`, the `AuthenticationFailed` kind), but with
different messages — `User does not exist` for an unknown email and
`Invalid credentials` for a wrong password — so a caller receiving the
message can tell the causes apart. -/
theorem login_failures_same_kind_distinct_messages {τ : Type}
    (vrfy : String → String → Bool) (sign : JwtPayload → τ)
    (email password : String) (users : List User) :
    (users.find? (fun u => u.email == email) = none →
      login vrfy sign email password users =
        .error (.unauthorized "User does not exist"))
    ∧ (∀ u, users.find? (fun u => u.email == email) = some u →
        vrfy password u.password = false →
        login vrfy sign email password users =
          .error (.unauthorized "Invalid credentials"))
    ∧ ("User does not exist" : String) ≠ "Invalid credentials" := by
  refine ⟨?_, ?_, by decide⟩
  · intro hfind
    simp [login, hfind]
  · intro u hfind hv
    simp [login, hfind, hv]

/-- Witness for C8 amended: the two concrete failure shapes on the
one-record directory. -/
theorem login_failures_same_kind_distinct_messages_witness :
    login (fun p d => p == d) (fun c : JwtPayload => c.sub)
      "z@x.com" "h1" [userA1] = .error (.unauthorized "User does not exist")
    ∧ login (fun p d => p == d) (fun c : JwtPayload => c.sub)
      "u@x.com" "bad" [userA1] =
        .error (.unauthorized "Invalid credentials") := by
  have h1 := login_failures_same_kind_distinct_messages
    (fun p d => p == d) (fun c : JwtPayload => c.sub) "z@x.com" "h1" [userA1]
  have h2 := login_failures_same_kind_distinct_messages
    (fun p d => p == d) (fun c : JwtPayload => c.sub) "u@x.com" "bad" [userA1]
  exact ⟨h1.1 rfl, h2.2.1 userA1 rfl rfl⟩

/-! ### C4, C5, C10: `queryUsers` -/

/-- A bad page (non-integer or negative) makes `queryUsers` throw the page
error before reading the directory. -/
lemma queryUsers_pageBad (users : List User) {page limit : Rat}
    (h : ¬(page.den = 1) ∨ page < 0) :
    queryUsers users page limit =
      .error (.invalidPageRequest
        "Page must be an integer greater or equal to 0") := by
  unfold queryUsers
  rw [if_pos h]

/-- A good page but a limit outside `{5, 10, 25}` makes `queryUsers` throw
the limit error before reading the directory. -/
lemma queryUsers_limitBad (users : List User) {page limit : Rat}
    (hp : ¬(¬(page.den = 1) ∨ page < 0))
    (hl : ¬(limit = 5 ∨ limit = 10 ∨ limit = 25)) :
    queryUsers users page limit =
      .error (.invalidPageRequest "Limit must be one of 5, 10, 25") := by
  unfold queryUsers
  rw [if_neg hp, if_pos hl]

/-- On valid inputs `queryUsers` returns the sorted JavaScript slice of
the insertion-ordered previews, the full record count, and echoes page and
limit. -/
lemma queryUsers_ok (users : List User) {page limit : Rat}
    (hden : page.den = 1) (hpos : 0 ≤ page)
    (hlim : limit = 5 ∨ limit = 10 ∨ limit = 25) :
    queryUsers users page limit =
      .ok { users := sortByEmail (jsSlice (mapUsersToUsersPreview users)
              ((page.num - 1) * limit.num)
              ((page.num - 1) * limit.num + limit.num))
          , total := users.length
          , page := page
          , limit := limit } := by
  unfold queryUsers
  rw [if_neg (by simp [hden, not_lt]; exact hpos), if_neg (not_not_intro hlim)]

/-- C4: `queryPage` fails with the invalid-page-request error whenever the
page is not a non-negative integer or the limit is outside `{5, 10, 25}`,
and the outcome then does not depend on the directory at all (nothing is
read or queued); on valid inputs it succeeds and echoes `page` and
`limit` in the result. -/
theorem queryPage_validation (page limit : Rat) :
    ((¬(page.den = 1) ∨ page < 0 ∨ ¬(limit = 5 ∨ limit = 10 ∨ limit = 25)) →
      ∀ users users' : List User,
        (∃ msg, queryUsers users page limit = .error (.invalidPageRequest msg))
        ∧ queryUsers users page limit = queryUsers users' page limit)
    ∧ (page.den = 1 → 0 ≤ page → (limit = 5 ∨ limit = 10 ∨ limit = 25) →
      ∀ users : List User, ∃ r, queryUsers users page limit = .ok r
        ∧ r.page = page ∧ r.limit = limit) := by
  constructor
  · intro hbad users users'
    by_cases hp : ¬(page.den = 1) ∨ page < 0
    · rw [queryUsers_pageBad users hp, queryUsers_pageBad users' hp]
      exact ⟨⟨_, rfl⟩, rfl⟩
    · have hl : ¬(limit = 5 ∨ limit = 10 ∨ limit = 25) := by
        rcases hbad with h | h | h
        · exact absurd (Or.inl h) hp
        · exact absurd (Or.inr h) hp
        · exact h
      rw [queryUsers_limitBad users hp hl, queryUsers_limitBad users' hp hl]
      exact ⟨⟨_, rfl⟩, rfl⟩
  · intro hden hpos hlim users
    exact ⟨_, queryUsers_ok users hden hpos hlim, rfl, rfl⟩

/-- Witness for C4: a negative page fails identically on two different
directories; a valid request echoes page 2 and limit 5. -/
theorem queryPage_validation_witness :
    ((∃ msg, queryUsers demoSix (-1) 5 = .error (.invalidPageRequest msg))
      ∧ queryUsers demoSix (-1) 5 = queryUsers [] (-1) 5)
    ∧ (∃ r, queryUsers demoSix 2 5 = .ok r ∧ r.page = 2 ∧ r.limit = 5) := by
  have h1 := (queryPage_validation (-1) 5).1 (by decide) demoSix []
  have h2 := (queryPage_validation 2 5).2 (by decide) (by decide)
    (by decide) demoSix
  exact ⟨h1, h2⟩

/-- `slice` with end index 0 returns the empty array. -/
lemma jsSlice_stop_zero {α : Type} (l : List α) (start : Int) :
    jsSlice l start 0 = [] := by
  simp only [jsSlice]
  rw [if_neg (by omega : ¬(0:Int) < 0),
    min_eq_left (Int.natCast_nonneg l.length)]
  simp

/-- `slice` starting at or past the array length returns the empty
array. -/
lemma jsSlice_start_ge {α : Type} (l : List α) {start stop : Int}
    (h0 : 0 ≤ start) (hlen : (l.length : Int) ≤ start) :
    jsSlice l start stop = [] := by
  simp only [jsSlice]
  rw [if_neg (by omega), min_eq_right hlen]
  apply List.drop_eq_nil_of_le
  rw [List.length_take]
  simp

/-- For non-negative start and count, `slice(start, start + count)` is
plain drop-then-take. -/
lemma jsSlice_nonneg {α : Type} (l : List α) {a L : Int}
    (ha : 0 ≤ a) (hL : 0 ≤ L) :
    jsSlice l a (a + L) = (l.drop a.toNat).take L.toNat := by
  simp only [jsSlice]
  rw [if_neg (by omega), if_neg (by omega)]
  by_cases hc : a ≤ (l.length : Int)
  · rw [min_eq_left hc, List.drop_take]
    by_cases h2 : a + L ≤ (l.length : Int)
    · have he : (min (a + L) (l.length : Int)).toNat - a.toNat = L.toNat := by
        omega
      rw [he]
    · have he : (min (a + L) (l.length : Int)).toNat - a.toNat
          = l.length - a.toNat := by
        omega
      rw [he, List.take_of_length_le (by rw [List.length_drop]),
        List.take_of_length_le (by rw [List.length_drop]; omega)]
  · rw [min_eq_right (by omega : (l.length : Int) ≤ a)]
    rw [List.drop_eq_nil_of_le (by rw [List.length_take]; simp)]
    rw [List.drop_eq_nil_of_le (by omega : l.length ≤ a.toNat)]
    simp

/-- The preview list has one entry per record. -/
lemma length_mapUsersToUsersPreview (users : List User) :
    (mapUsersToUsersPreview users).length = users.length := by
  simp [mapUsersToUsersPreview]

/-- C10: for a valid limit and an integer page that is 0 (negative
computed offset) or whose offset `(page - 1) * limit` is at or beyond the
record count, `queryUsers` succeeds with an empty users sequence while
still echoing page and limit and reporting the full record count. -/
theorem queryPage_out_of_range_empty (users : List User) (page limit : Rat)
    (hden : page.den = 1) (hpos : 0 ≤ page)
    (hlim : limit = 5 ∨ limit = 10 ∨ limit = 25)
    (hrange : page = 0 ∨
      ((users.length : Int) ≤ (page.num - 1) * limit.num)) :
    queryUsers users page limit =
      .ok { users := [], total := users.length
          , page := page, limit := limit } := by
  rw [queryUsers_ok users hden hpos hlim]
  suffices h : sortByEmail (jsSlice (mapUsersToUsersPreview users)
      ((page.num - 1) * limit.num)
      ((page.num - 1) * limit.num + limit.num)) = [] by
    rw [h]
  rcases hrange with h0 | hge
  · subst h0
    have hz : ((0:Rat).num - 1) * limit.num + limit.num = 0 := by
      simp
    rw [hz, jsSlice_stop_zero]
    rfl
  · have hpage1 : 1 ≤ page.num := by
      by_contra hlt
      push_neg at hlt
      have hnum0 : page.num = 0 := by
        have := Rat.num_nonneg.mpr hpos
        omega
      have hLpos : 0 < limit.num := by
        rcases hlim with h | h | h <;> simp [h]
      rw [hnum0] at hge
      have : (0:Int) ≤ users.length := Int.natCast_nonneg users.length
      omega
    have hLpos : 0 < limit.num := by
      rcases hlim with h | h | h <;> simp [h]
    rw [jsSlice_start_ge (mapUsersToUsersPreview users)
      (mul_nonneg (by omega) (by omega))
      (by rw [length_mapUsersToUsersPreview]; exact hge)]
    rfl

/-- Witness for C10: on the six-record directory, page 0 and page 3 with
limit 5 both give an empty page that still echoes page/limit and reports
total 6. -/
theorem queryPage_out_of_range_empty_witness :
    queryUsers demoSix 0 5 =
      .ok { users := [], total := demoSix.length, page := 0, limit := 5 }
    ∧ queryUsers demoSix 3 5 =
      .ok { users := [], total := demoSix.length, page := 3, limit := 5 } :=
  ⟨queryPage_out_of_range_empty demoSix 0 5 (by decide) (by decide)
      (by decide) (Or.inl (by decide))
  , queryPage_out_of_range_empty demoSix 3 5 (by decide) (by decide)
      (by decide) (Or.inr (by decide))⟩

/-- C5: on every directory state and valid request, `queryUsers` builds
its page by slicing the insertion-ordered preview list at offset
`(page - 1) * limit` with length `limit` (JavaScript clipping) and then
sorting only that slice by email; `total` is the full record count. For
pages from 1 on, the slice is plain drop-then-take. The page-level sort is
not a sort of the whole directory before slicing: on the six-record
reverse-ordered directory, page 2 differs from page 2 of the globally
sorted listing. -/
theorem queryPage_slices_then_sorts (users : List User) (page limit : Rat)
    (hden : page.den = 1) (hpos : 0 ≤ page)
    (hlim : limit = 5 ∨ limit = 10 ∨ limit = 25) :
    (queryUsers users page limit =
      .ok { users := sortByEmail (jsSlice (mapUsersToUsersPreview users)
              ((page.num - 1) * limit.num)
              ((page.num - 1) * limit.num + limit.num))
          , total := users.length
          , page := page
          , limit := limit })
    ∧ (1 ≤ page →
      sortByEmail (jsSlice (mapUsersToUsersPreview users)
          ((page.num - 1) * limit.num)
          ((page.num - 1) * limit.num + limit.num))
        = sortByEmail (((mapUsersToUsersPreview users).drop
            ((page.num - 1) * limit.num).toNat).take limit.num.toNat))
    ∧ (queryUsers demoSix 2 5).toOption.map UserQueryResponse.users ≠
        some (((sortByEmail (mapUsersToUsersPreview demoSix)).drop 5).take 5) := by
  refine ⟨queryUsers_ok users hden hpos hlim, ?_, by decide⟩
  intro hpage1
  have hnum1 : 1 ≤ page.num := by
    have hq : ((page.num : Int) : Rat) = page := (Rat.den_eq_one_iff page).mp hden
    have h2 : (1:Rat) ≤ ((page.num : Int) : Rat) := by
      rw [hq]
      exact hpage1
    exact_mod_cast h2
  have hLpos : 0 < limit.num := by
    rcases hlim with h | h | h <;> simp [h]
  rw [jsSlice_nonneg (mapUsersToUsersPreview users)
    (mul_nonneg (by omega) (by omega)) (by omega)]

/-- Witness for C5 at page 2, limit 5 on the six-record directory. -/
theorem queryPage_slices_then_sorts_witness :
    queryUsers demoSix 2 5 =
      .ok { users := sortByEmail (jsSlice (mapUsersToUsersPreview demoSix)
              (((2:Rat).num - 1) * (5:Rat).num)
              (((2:Rat).num - 1) * (5:Rat).num + (5:Rat).num))
          , total := demoSix.length
          , page := 2
          , limit := 5 }
    ∧ sortByEmail (jsSlice (mapUsersToUsersPreview demoSix)
          (((2:Rat).num - 1) * (5:Rat).num)
          (((2:Rat).num - 1) * (5:Rat).num + (5:Rat).num))
        = sortByEmail (((mapUsersToUsersPreview demoSix).drop
            ((((2:Rat).num - 1) * (5:Rat).num).toNat)).take (5:Rat).num.toNat) := by
  have h := queryPage_slices_then_sorts demoSix 2 5
    (by decide) (by decide) (by decide)
  exact ⟨h.1, h.2.1 (by decide)⟩

/-! ### C9: the token authority (modelled from the spec) -/

/-- C9: verifying a token issued for some claims, at any instant inside
the one-hour validity window, returns exactly those claims; verifying it
at or after expiry fails with `InvalidToken`; and verifying the token with
any one signature byte changed fails with `InvalidToken`. -/
theorem token_roundtrip_expiry_tamper (secret : String) (c : JwtPayload)
    (tIssue now later : Nat)
    (hwin : now < tIssue + 3600) (hexp : tIssue + 3600 ≤ later) :
    verifyToken secret (issueToken secret c tIssue) now = .ok c
    ∧ verifyToken secret (issueToken secret c tIssue) later =
        .error .invalidToken
    ∧ (∀ (i : Nat) (b : Nat) (hi : i < (issueToken secret c tIssue).sig.length),
        b ≠ (issueToken secret c tIssue).sig.get ⟨i, hi⟩ →
        ∀ anyNow : Nat,
        verifyToken secret
          { claims := c, iat := tIssue, exp := tIssue + 3600
          , sig := (issueToken secret c tIssue).sig.set i b } anyNow =
          .error .invalidToken) := by
  refine ⟨?_, ?_, ?_⟩
  · simp [verifyToken, issueToken, hwin]
  · simp [verifyToken, issueToken, show ¬(later < tIssue + 3600) by omega]
  · intro i b hi hb anyNow
    have hne : (issueToken secret c tIssue).sig.set i b ≠
        computeSig secret c tIssue (tIssue + 3600) := by
      intro hset
      apply hb
      have hlen : i < ((issueToken secret c tIssue).sig.set i b).length := by
        simpa using hi
      have h1 : ((issueToken secret c tIssue).sig.set i b)[i]? = some b := by
        rw [List.getElem?_eq_getElem hlen]
        exact congrArg some (List.getElem_set_self hlen)
      rw [hset] at h1
      have h2 : (computeSig secret c tIssue (tIssue + 3600))[i]? =
          some ((issueToken secret c tIssue).sig.get ⟨i, hi⟩) := by
        rw [List.get_eq_getElem, ← List.getElem?_eq_getElem hi]
        rfl
      exact (Option.some_injective _ (h2.symm.trans h1)).symm
    simp [verifyToken, hne]

/-- Witness for C9 at a concrete secret, claims and clock values. -/
theorem token_roundtrip_expiry_tamper_witness :
    verifyToken "secretKey" (issueToken "secretKey"
      { sub := "i1", email := "u@x.com" } 100) 3699 =
      .ok { sub := "i1", email := "u@x.com" }
    ∧ verifyToken "secretKey" (issueToken "secretKey"
      { sub := "i1", email := "u@x.com" } 100) 3700 =
      .error .invalidToken
    ∧ verifyToken "secretKey"
      { claims := { sub := "i1", email := "u@x.com" }
      , iat := 100, exp := 100 + 3600
      , sig := (issueToken "secretKey"
          { sub := "i1", email := "u@x.com" } 100).sig.set 0 1000000 } 200 =
      .error .invalidToken := by
  have h := token_roundtrip_expiry_tamper "secretKey"
    { sub := "i1", email := "u@x.com" } 100 3699 3700
    (by omega) (by omega)
  exact ⟨h.1, h.2.1, h.2.2 0 1000000 (by decide) (by decide) 200⟩

